import Mathlib

/-!
Verification of the media reference pipeline of the life-log-web client.

Strings of the TypeScript source are modelled as `List Char`; JavaScript
string methods (`split`, `replace`, `startsWith`, regular-expression
tests) are embedded as executable functions on `List Char`.  Machine
numbers that hold timestamps are modelled as `Int` (the values involved
are integral millisecond counts).  Browser APIs that the source calls
(`URL`, `parseInt`, `Date.now`, `Math.random`) are modelled explicitly
where the surrounding control flow depends on them.
-/

namespace LifeLog

/-- Buffer and token strings are lists of characters. -/
abbrev Str := List Char

/-- Coerces a Lean string literal to the `List Char` representation. -/
def str (s : String) : Str := s.data

/-- Word characters of the JavaScript regex class backslash-w
(ASCII letters, digits and underscore). -/
def isWordChar (c : Char) : Bool := c.isAlphanum || c = '_'

/-- Whitespace recognised by JavaScript (the forms that occur in this
code base: space, tab, newline, carriage return). -/
def isJsWs (c : Char) : Bool := c = ' ' || c = '\t' || c = '\n' || c = '\r'

/-- Embeds `s.split(sep)` of JavaScript for a one-character separator:
the list of (possibly empty) segments between occurrences of `sep`. -/
def splitOnChar (sep : Char) : Str → List Str
  | [] => [[]]
  | c :: rest =>
    match splitOnChar sep rest with
    | [] => if c = sep then [[], []] else [[c]]
    | h :: t => if c = sep then [] :: h :: t else (c :: h) :: t

/-- Embeds the spread of a JavaScript `Set` built from a list
(`[...new Set(xs)]`): duplicates removed keeping first occurrences.
The `seen` accumulator holds the values already emitted. -/
def dedupFirstAux (seen : List Str) : List Str → List Str
  | [] => []
  | x :: xs =>
    if x ∈ seen then dedupFirstAux seen xs
    else x :: dedupFirstAux (x :: seen) xs

/-- Removes duplicates keeping the first occurrence of each value. -/
def dedupFirst (l : List Str) : List Str := dedupFirstAux [] l

/-- Embeds `s.replace(tok, repl)` of JavaScript for a plain-string
pattern: replaces the first occurrence of `tok` only, returns the
string unchanged when `tok` does not occur. -/
def replaceFirst (tok repl : Str) : Str → Str
  | [] => if tok.isPrefixOf ([] : Str) then repl else []
  | c :: rest =>
    if tok.isPrefixOf (c :: rest) then repl ++ (c :: rest).drop tok.length
    else c :: replaceFirst tok repl rest

/-- Substring test: `occursIn pat s` holds when `pat` occurs
contiguously inside `s`. -/
def occursIn (pat : Str) : Str → Bool
  | [] => pat.isPrefixOf ([] : Str)
  | c :: rest => pat.isPrefixOf (c :: rest) || occursIn pat rest

/-- States that no occurrence of `tok` in `s` starts before position
`n`; the hypothesis under which the replaced occurrence of `tok` is the
one at position `n`. -/
abbrev firstOccFree (tok s : Str) (n : Nat) : Prop :=
  ∀ i < n, tok.isPrefixOf (s.drop i) = false

/-- Embeds the body of the image regex of `extractImageFilenames`
after the literal prefix of an exclamation mark and an opening square
bracket has been consumed: the lazy dot-star (which cannot cross a
newline), then a closing square bracket, an opening parenthesis, one or
more characters other than a closing parenthesis (the capture group),
and a closing parenthesis.  Returns the capture and the remainder after
the whole match.  The fuel argument bounds the scan; callers pass the
length of the input, which one-character steps can never exhaust. -/
def lazyScanAux : Nat → Str → Option (Str × Str)
  | 0, _ => none
  | _ + 1, [] => none
  | fuel + 1, ']' :: '(' :: rest =>
    let b := rest.takeWhile (fun c => c ≠ ')')
    if b ≠ [] ∧ (rest.drop b.length).head? = some ')' then
      some (b, rest.drop (b.length + 1))
    else
      lazyScanAux fuel ('(' :: rest)
  | fuel + 1, c :: rest =>
    if c = '\n' then none else lazyScanAux fuel rest

/-- Runs `lazyScanAux` with enough fuel for the whole input. -/
def lazyScan (s : Str) : Option (Str × Str) := lazyScanAux (s.length + 1) s

/-- Attempts the image regex at the current position: the literal
exclamation mark and opening square bracket, then `lazyScan`. -/
def matchImageAt : Str → Option (Str × Str)
  | '!' :: '[' :: t => lazyScan t
  | _ => none

/-- Embeds the global `exec` loop over the image regex: collects the
capture of each match, resuming after the end of the previous match,
and advancing one character at positions where no match starts. -/
def scanImagesAux : Nat → Str → List Str
  | 0, _ => []
  | _ + 1, [] => []
  | fuel + 1, s@(_ :: rest) =>
    match matchImageAt s with
    | some (b, after) => b :: scanImagesAux fuel after
    | none => scanImagesAux fuel rest

/-- All captures of the image regex over a markdown text, in order. -/
def scanImages (s : Str) : List Str := scanImagesAux (s.length + 1) s

/-- Embeds `url.split("/").pop() || url`: the last path segment, or the
whole reference when that segment is empty. -/
def lastSegment (url : Str) : Str :=
  match (splitOnChar '/' url).getLast? with
  | some l => if l = [] then url else l
  | none => url

/-- Embeds the test of the regex caret, backslash-d plus, literal dot,
backslash-w plus, of the source: one or more leading digits followed
immediately by a dot and a word character.  Because a digit can never
match the literal dot, the greedy digit run needs no backtracking. -/
def matchesCodePattern (s : Str) : Bool :=
  let ds := s.takeWhile Char.isDigit
  decide (ds ≠ []) &&
    (match s.drop ds.length with
     | '.' :: w :: _ => isWordChar w
     | _ => false)

/-- Helper of `specFilenamePattern`: after the leading digit, scans for
a dot followed by a word character, any characters other than a slash
allowed in between (the dot itself may also be absorbed by that
class). -/
def specTailPattern : Str → Bool
  | [] => false
  | '.' :: rest =>
    (match rest with
     | w :: _ => isWordChar w
     | [] => false) || specTailPattern rest
  | c :: rest => decide (c ≠ '/') && specTailPattern rest

/-- Modelled from the spec: the canonical filename pattern of section 6
(caret, backslash-d plus, slash-free run, literal dot, backslash-w
plus) — leading digits, then non-slash characters, a dot, and a word
character; this definition exists to be compared with the pattern the
source actually tests, `matchesCodePattern`. -/
def specFilenamePattern : Str → Bool
  | [] => false
  | c :: rest => c.isDigit && specTailPattern rest

/-- Embeds `extractImageFilenames` of the page editor: captures of the
image regex, reduced to their last path segment, with uploading
placeholders skipped, kept only when the timestamp pattern of the
source matches, deduplicated keeping first occurrences. -/
def extractImageFilenames (markdown : Str) : List Str :=
  dedupFirst
    ((scanImages markdown).filterMap (fun url =>
      let filename := lastSegment url
      if (str ("uploading-")).isPrefixOf filename then none
      else if matchesCodePattern filename then some filename
      else none))

/-- Outcome of parsing a stored URL string with the browser URL
constructor against the API base, as consulted by the staleness check:
`malformed` models the constructor throwing (the catch branch of the
source), `parsed p` models a URL that parses and whose `expires` query
parameter is `p` (`none` when the parameter is absent). -/
inductive UrlModel where
  | malformed : UrlModel
  | parsed : Option Str → UrlModel
deriving DecidableEq

/-- Digits of a decimal numeral folded to a natural number. -/
def digitsToNat (ds : Str) : Nat :=
  ds.foldl (fun acc c => acc * 10 + (c.toNat - 48)) 0

/-- Leading decimal digit run of a string as a number; `none` when the
string has no leading digit (the NaN result of `parseInt`). -/
def parseLeadingDigits (u : Str) : Option Nat :=
  let ds := u.takeWhile Char.isDigit
  if ds = [] then none else some (digitsToNat ds)

/-- Embeds `parseInt(s)` of JavaScript on base-ten input: leading
whitespace skipped, an optional sign, then leading digits; trailing
characters ignored; `none` models the NaN result. -/
def jsParseInt (s : Str) : Option Int :=
  match s.dropWhile isJsWs with
  | '-' :: rest => (parseLeadingDigits rest).map (fun n => -(n : Int))
  | '+' :: rest => (parseLeadingDigits rest).map (fun n => (n : Int))
  | t => (parseLeadingDigits t).map (fun n => (n : Int))

/-- Embeds the body of the `missingFilenames` filter of
`fetchSignedUrls` for an entry that is present in the cache: in the
catch branch (URL constructor threw) the entry counts as missing; when
the URL parses, the `expires` parameter (with the string zero as the
fallback of the null or empty case) goes through `parseInt` and the
entry counts as missing when now exceeds the expiry minus the
sixty-second margin.  A NaN from `parseInt` makes that comparison
false, so the entry then counts as present. -/
def staleCheck (now : Int) : UrlModel → Bool
  | .malformed => true
  | .parsed p =>
    let raw := match p with
      | some s => if s = [] then str ("0") else s
      | none => str ("0")
    match jsParseInt raw with
    | none => false
    | some e => decide (now > e - 60000)

/-- Cache of signed URLs as consulted by the staleness filter: a map
from filename to the parse outcome of the stored URL string. -/
abbrev UrlCache := List (Str × UrlModel)

/-- Embeds `imageUrlMap.get(filename)` on the staleness model. -/
def cacheGet (cache : UrlCache) (k : Str) : Option UrlModel :=
  (cache.find? (fun p => p.1 == k)).map (fun p => p.2)

/-- Full filter predicate of `missingFilenames`: a filename is missing
when the cache has no entry for it, and otherwise when `staleCheck`
marks the entry stale. -/
def missingFilter (cache : UrlCache) (now : Int) (f : Str) : Bool :=
  match cacheGet cache f with
  | none => true
  | some u => staleCheck now u

/-- Embeds `getSignedUrls(filenames)` of the API service at the level
of issued requests: the function maps every filename to its own
`getSignedUrl` call, so the request list is the filename list itself,
one signing request per element. -/
def getSignedUrlsRequests (filenames : List Str) : List Str := filenames

/-- Embeds one run of the `fetchSignedUrls` effect of the page editor
as the list of signing requests it issues: nothing for empty content,
nothing when no filename is extracted, nothing when no extracted
filename is missing or stale, and otherwise one `getSignedUrl` request
per missing filename via `getSignedUrlsRequests`. -/
def fetchSignedUrlsRequests (content : Str) (cache : UrlCache)
    (now : Int) : List Str :=
  if content = [] then []
  else if extractImageFilenames content = [] then []
  else if (extractImageFilenames content).filter (missingFilter cache now) = [] then []
  else getSignedUrlsRequests
    ((extractImageFilenames content).filter (missingFilter cache now))

/-- Embeds the placeholder template of `handleImageUpload` of the
markdown editor component for the file at index `i` of the batch with
identifier `uploadId` (the `Date.now()` value captured when the batch
was selected): an image token whose text carries the original file
name and whose reference is the uploading token. -/
def placeholderTok (name : Str) (uploadId i : Nat) : Str :=
  str ("![Uploading ") ++ name ++ str ("...](uploading-") ++
    (Nat.repr uploadId).data ++ str ("-") ++ (Nat.repr i).data ++ str (")")

/-- Placeholder tokens of a whole batch, in file order. -/
def placeholderList (names : List Str) (uploadId : Nat) : List Str :=
  names.enum.map (fun p => placeholderTok p.2 uploadId p.1)

/-- Embeds the synchronous splice of `handleImageUpload`: the text
before the cursor, a newline, the placeholder lines joined by
newlines, a newline, and the text after the cursor. -/
def insertPlaceholders (content : Str) (pos : Nat) (names : List Str)
    (uploadId : Nat) : Str :=
  content.take pos ++ str ("\n") ++
    List.intercalate (str ("\n")) (placeholderList names uploadId) ++
    str ("\n") ++ content.drop pos

/-- Canonical image reference inserted for a finished upload. -/
def imageRef (filename : Str) : Str :=
  str ("![image](") ++ filename ++ str (")")

/-- Embeds one iteration of the success branch of `handleImageUpload`:
the placeholder of one file replaced (first occurrence) by the
canonical reference of the filename returned for that index.  The
JavaScript indexing `filenames[i]` yields undefined past the end of
the array, which the template literal renders as the word
undefined. -/
def successStep (acc : Str) (p : Str) (fn : Option Str) : Str :=
  replaceFirst p (imageRef (match fn with
    | some f => f
    | none => str ("undefined"))) acc

/-- Embeds the whole success branch: a functional update against the
current buffer that folds `successStep` over the placeholders of the
batch with their indices. -/
def reconcileSuccess (current : Str) (pls : List Str)
    (filenames : List Str) : Str :=
  pls.enum.foldl (fun acc p => successStep acc p.2 (filenames.get? p.1))
    current

/-- Embeds the whole error branch: a functional update against the
current buffer that removes each placeholder of the batch together
with its trailing newline (replacement by the empty string). -/
def reconcileError (current : Str) (pls : List Str) : Str :=
  pls.foldl (fun acc p => replaceFirst (p ++ str ("\n")) [] acc) current

/-- Embeds `Promise.all` over the per-file upload results of a batch:
the list of values when every file succeeded, and the rejection of a
failed file otherwise (the leftmost failure stands for whichever
rejection settles the combined promise; the reconciliation below never
inspects the error value). -/
def promiseAll : List (Except Str Str) → Except Str (List Str)
  | [] => .ok []
  | .ok a :: rest => (promiseAll rest).map (fun l => a :: l)
  | .error e :: _ => .error e

/-- Embeds the reconciliation phase of `handleImageUpload` after the
awaited batch settles: the success branch replaces every placeholder
by its canonical reference, the catch branch removes every
placeholder.  `current` is the buffer at application time (the
functional update receives the latest state, not the snapshot captured
at insertion). -/
def reconcileAfterUpload (current : Str) (names : List Str)
    (uploadId : Nat) (outcome : Except Str (List Str)) : Str :=
  match outcome with
  | .ok filenames => reconcileSuccess current (placeholderList names uploadId) filenames
  | .error _ => reconcileError current (placeholderList names uploadId)

/-- Browser file as the normalizer sees it: a name and a MIME type
(blob contents and sizes play no role in the verified claims and are
not modelled). -/
structure JsFile where
  name : Str
  ftype : Str
deriving DecidableEq

/-- Lower-cased copy of a string (ASCII, as in the names and MIME
types involved). -/
def toLowerStr (s : Str) : Str := s.map Char.toLower

/-- Embeds `isHEIC`: the lower-cased name ends in the heic or heif
extension, or the lower-cased MIME type is the heic or heif type. -/
def isHEIC (f : JsFile) : Bool :=
  let fileName := toLowerStr f.name
  let fileType := toLowerStr f.ftype
  (str (".heic")).isSuffixOf fileName ||
  (str (".heif")).isSuffixOf fileName ||
  fileType == str ("image/heic") ||
  fileType == str ("image/heif")

/-- Embeds the regex replace that drops a final extension (a dot
followed by one or more characters none of which is a slash or a dot,
anchored at the end): the name unchanged when no such suffix exists. -/
def stripExt (name : Str) : Str :=
  let revTail := name.reverse.takeWhile (fun c => ¬ (c = '.' ∨ c = '/'))
  if revTail ≠ [] ∧ (name.reverse.drop revTail.length).head? = some '.' then
    name.take (name.length - revTail.length - 1)
  else name

/-- Embeds `convertHEICtoJPEG` with the outcome of the external
`heic2any` call supplied by the oracle `convOk`: on success a new file
named after the original with a jpg extension and a jpeg MIME type; on
failure the thrown error message. -/
def convertHEICtoJPEG (convOk : JsFile → Bool) (f : JsFile) :
    Except Str JsFile :=
  if convOk f then
    .ok ⟨stripExt f.name ++ str (".jpg"), str ("image/jpeg")⟩
  else
    .error (str ("Failed to convert HEIC image: ") ++ f.name)

/-- Embeds `compressImage` with the outcome of the external
`imageCompression` call supplied by the oracle `compress`: the
compressed file on success, and the original file on failure (the
catch branch returns the input unchanged). -/
def compressImage (compress : JsFile → Except Unit JsFile)
    (f : JsFile) : JsFile :=
  match compress f with
  | .ok c => c
  | .error _ => f

/-- Embeds `s.split(".").pop() || "jpg"` of `generateUniqueFilename`:
the text after the last dot, the whole name when it has no dot, and
the literal jpg when that segment is empty. -/
def extOf (name : Str) : Str :=
  match (splitOnChar '.' name).getLast? with
  | some l => if l = [] then str ("jpg") else l
  | none => str ("jpg")

/-- Embeds the slug sanitizer of `generateUniqueFilename`: lower-case,
runs of characters outside lower-case letters and digits collapsed to
single hyphens. -/
def collapseNonAlnum : Str → Str
  | [] => []
  | [c] => if c.isLower ∨ c.isDigit then [c] else ['-']
  | c :: c2 :: rest =>
    if ¬ (c.isLower ∨ c.isDigit) ∧ ¬ (c2.isLower ∨ c2.isDigit) then
      collapseNonAlnum (c2 :: rest)
    else
      (if c.isLower ∨ c.isDigit then c else '-') ::
        collapseNonAlnum (c2 :: rest)

/-- Removes leading and trailing hyphen runs (embeds the second
replace of the sanitizer). -/
def trimHyphens (s : Str) : Str :=
  ((s.dropWhile (fun c => c = '-')).reverse.dropWhile
    (fun c => c = '-')).reverse

/-- Embeds `generateUniqueFilename` with the `Date.now()` timestamp
and the random component supplied as arguments: the timestamp, the
random string, and a sanitized length-limited slug of the original
name, joined by hyphens, with the original extension. -/
def generateUniqueFilename (ts : Nat) (rand : Str) (f : JsFile) : Str :=
  let ext := extOf f.name
  let nameWithoutExt := stripExt f.name
  let sanitized :=
    (trimHyphens (collapseNonAlnum (toLowerStr nameWithoutExt))).take 30
  (Nat.repr ts).data ++ str ("-") ++ rand ++ str ("-") ++ sanitized ++
    str (".") ++ ext

/-- One output record of `processImages` (the size field of the source
reads the blob size, which is not modelled). -/
structure ProcessedImage where
  file : JsFile
  originalName : Str
  newName : Str
  url : Str
deriving DecidableEq

/-- Embeds the loop of `processImages` over the selected files.  The
`seeds` argument supplies the `Date.now()` and `Math.random()` values
of the call for the file at each index.  A HEIC file whose conversion
fails makes the whole call reject (the loop rethrows); a compression
failure falls back to the original file and the loop continues. -/
def processImagesAux (convOk : JsFile → Bool)
    (compress : JsFile → Except Unit JsFile) (seeds : Nat → Nat × Str)
    (urlPrefix : Str) (i : Nat) : List JsFile →
    Except Str (List ProcessedImage)
  | [] => .ok []
  | f :: rest =>
    match (if isHEIC f then convertHEICtoJPEG convOk f else .ok f) with
    | .error e => .error e
    | .ok fileToProcess =>
      let compressed := compressImage compress fileToProcess
      let newName :=
        generateUniqueFilename (seeds i).1 (seeds i).2 fileToProcess
      let renamed : JsFile := ⟨newName, compressed.ftype⟩
      match processImagesAux convOk compress seeds urlPrefix (i + 1) rest with
      | .error e => .error e
      | .ok ps =>
        .ok ({ file := renamed, originalName := f.name,
               newName := newName, url := urlPrefix ++ newName } :: ps)

/-- Embeds `processImages` with the default upload URL prefix. -/
def processImages (convOk : JsFile → Bool)
    (compress : JsFile → Except Unit JsFile) (seeds : Nat → Nat × Str)
    (files : List JsFile) : Except Str (List ProcessedImage) :=
  processImagesAux convOk compress seeds (str ("/uploads/")) 0 files

/-- Embeds `handleImageUpload` of the page editor up to the point
where upload requests are issued: `processImages` first, and only on
its success one upload call per processed file (`uploadImages` maps
every file to its own request); a processing error is rethrown before
any upload call starts. -/
def editorUploadCalls (convOk : JsFile → Bool)
    (compress : JsFile → Except Unit JsFile) (seeds : Nat → Nat × Str)
    (files : List JsFile) : Except Str (List JsFile) :=
  match processImages convOk compress seeds files with
  | .error e => .error e
  | .ok imgs => .ok (imgs.map (fun p => p.file))

/-- JavaScript `Map` from filename to stored URL string, as a list of
pairs in insertion order. -/
abbrev JsMap := List (Str × Str)

/-- Embeds `m.set(k, v)`: the value of an existing key updated keeping
its position, a new key appended at the end. -/
def mapSet (k v : Str) : JsMap → JsMap
  | [] => [(k, v)]
  | (k2, v2) :: rest =>
    if k2 == k then (k, v) :: rest else (k2, v2) :: mapSet k v rest

/-- Heap of allocated map objects; a reference is the index at which
the object was allocated.  A state update that constructs a new map
(`new Map(old)` followed by `setImageUrlMap(newMap)`) appends a fresh
object and returns its reference, leaving every existing object
untouched; an in-place mutation would instead overwrite the object at
the old reference. -/
abbrev Heap := List JsMap

/-- Dereferences a map object. -/
def heapGet (h : Heap) (r : Nat) : Option JsMap := h[r]?

/-- Allocates a fresh map object and returns the updated heap together
with the reference of the new object. -/
def allocMap (h : Heap) (m : JsMap) : Heap × Nat := (h ++ [m], h.length)

/-- One upload response as consumed by the cache update of
`handleImageUpload` of the page editor. -/
structure UploadResult where
  filename : Option Str
  path : Str
  url : Str

/-- Embeds `result.filename || result.path` (an absent or empty
filename falls back to the path). -/
def uploadKey (r : UploadResult) : Str :=
  match r.filename with
  | some f => if f = [] then r.path else f
  | none => r.path

/-- Embeds the cache update of the upload path of the page editor:
a copy of the map at the current reference, one `set` per upload
result keyed by `uploadKey` with the base-prefixed URL, and the copy
installed as a fresh object. -/
def uploadPathUpdate (h : Heap) (r : Nat) (base : Str)
    (results : List UploadResult) : Heap × Nat :=
  let old := (heapGet h r).getD []
  let newMap :=
    results.foldl (fun acc res => mapSet (uploadKey res) (base ++ res.url) acc) old
  allocMap h newMap

/-- One signing response as consumed by the cache update of
`fetchSignedUrls`. -/
structure SignResult where
  filename : Str
  url : Str

/-- Embeds the cache update of the signing path: a copy of the map at
the current reference, one `set` per signing result keyed by the
filename with the base-prefixed URL, and the copy installed as a fresh
object. -/
def signPathUpdate (h : Heap) (r : Nat) (base : Str)
    (results : List SignResult) : Heap × Nat :=
  let old := (heapGet h r).getD []
  let newMap :=
    results.foldl (fun acc res => mapSet res.filename (base ++ res.url) acc) old
  allocMap h newMap

/-- Entry payload built by `handleSave` of the page editor (the fields
the claims consult; identifiers and timestamps of the create path are
orthogonal to the content field). -/
structure SaveRequest where
  content : Str
  searchHint : Str
  locationId : Option Nat
  tagIds : Option (List Nat)
  mediaPaths : Option (List Str)

/-- Characters of the markdown-syntax class that the search hint
replaces by spaces (hash, asterisk, underscore, tilde, backtick, the
square brackets and the parentheses). -/
def isHintSpecial (c : Char) : Bool :=
  c = '#' || c = '*' || c = '_' || c = '~' || c = Char.ofNat 96 ||
  c = '[' || c = ']' || c = '(' || c = ')'

/-- Collapses every run of JavaScript whitespace to one space
(embeds the whitespace-plus replace). -/
def collapseWs : Str → Str
  | [] => []
  | [c] => if isJsWs c then [' '] else [c]
  | c :: c2 :: rest =>
    if isJsWs c ∧ isJsWs c2 then collapseWs (c2 :: rest)
    else (if isJsWs c then ' ' else c) :: collapseWs (c2 :: rest)

/-- Embeds `trim()` over the JavaScript whitespace of this model. -/
def trimWs (s : Str) : Str :=
  ((s.dropWhile (fun c => isJsWs c)).reverse.dropWhile
    (fun c => isJsWs c)).reverse

/-- Embeds the search hint derivation of `handleSave`: markdown
syntax characters to spaces, whitespace runs collapsed, trimmed,
lower-cased. -/
def generateSearchHint (content : Str) : Str :=
  toLowerStr
    (trimWs (collapseWs (content.map (fun c =>
      if isHintSpecial c then ' ' else c))))

/-- Embeds the request construction of `handleSave` of the page
editor, fed with the buffer text that `handleSave` of the markdown
editor component passes through unchanged: the content field carries
the buffer verbatim, with no filtering of in-flight placeholder
tokens; empty tag and path lists become absent fields. -/
def mkSaveRequest (content : Str) (locationId : Option Nat)
    (tagIds : List Nat) (mediaPaths : List Str) : SaveRequest :=
  { content := content
    searchHint := generateSearchHint content
    locationId := locationId
    tagIds := if tagIds.length > 0 then some tagIds else none
    mediaPaths := if mediaPaths.length > 0 then some mediaPaths else none }

/-- Unfolds `replaceFirst` at a string that the pattern prefixes. -/
theorem replaceFirst_of_isPrefixOf (tok repl s : Str)
    (h : tok.isPrefixOf s = true) :
    replaceFirst tok repl s = repl ++ s.drop tok.length := by
  cases s with
  | nil => simp [replaceFirst, h]
  | cons c rest => simp [replaceFirst, h]

/-- Unfolds `replaceFirst` at a nonempty string that the pattern does
not prefix. -/
theorem replaceFirst_cons_of_not (tok repl : Str) (c : Char) (rest : Str)
    (h : tok.isPrefixOf (c :: rest) = false) :
    replaceFirst tok repl (c :: rest) = c :: replaceFirst tok repl rest := by
  simp [replaceFirst, h]

/-- Replacement at the first occurrence: when no occurrence of `tok`
starts inside the prefix `a`, replacing in `a ++ (tok ++ b)` rewrites
exactly the exhibited occurrence and leaves `a` and `b` unchanged. -/
theorem replaceFirst_at (tok repl : Str) :
    ∀ a b : Str, firstOccFree tok (a ++ (tok ++ b)) a.length →
    replaceFirst tok repl (a ++ (tok ++ b)) = a ++ (repl ++ b) := by
  intro a
  induction a with
  | nil =>
    intro b _
    have hp : tok.isPrefixOf (tok ++ b) = true := by
      rw [List.isPrefixOf_iff_prefix]
      exact List.prefix_append tok b
    simpa [List.drop_left] using replaceFirst_of_isPrefixOf tok repl (tok ++ b) hp
  | cons c a ih =>
    intro b h
    have h0 : tok.isPrefixOf (c :: (a ++ (tok ++ b))) = false := by
      have := h 0 (Nat.succ_pos a.length)
      simpa using this
    have step := replaceFirst_cons_of_not tok repl c (a ++ (tok ++ b)) h0
    have tail : replaceFirst tok repl (a ++ (tok ++ b)) = a ++ (repl ++ b) := by
      refine ih b ?_
      intro i hi
      have hi2 : i + 1 < (c :: a).length := by
        simp only [List.length_cons]
        omega
      have := h (i + 1) hi2
      simpa using this
    calc replaceFirst tok repl ((c :: a) ++ (tok ++ b))
        = c :: replaceFirst tok repl (a ++ (tok ++ b)) := step
      _ = c :: (a ++ (repl ++ b)) := by rw [tail]
      _ = (c :: a) ++ (repl ++ b) := rfl

/-- The first-occurrence deduplication emits no value already seen and
no value twice. -/
theorem dedupFirstAux_nodup (l : List Str) :
    ∀ seen, (dedupFirstAux seen l).Nodup ∧
      ∀ x ∈ dedupFirstAux seen l, x ∉ seen := by
  induction l with
  | nil => intro seen; simp [dedupFirstAux]
  | cons x xs ih =>
    intro seen
    by_cases hx : x ∈ seen
    · simpa [dedupFirstAux, hx] using ih seen
    · have ih2 := ih (x :: seen)
      have hres : dedupFirstAux seen (x :: xs) =
          x :: dedupFirstAux (x :: seen) xs := by
        simp [dedupFirstAux, hx]
      rw [hres]
      refine ⟨?_, ?_⟩
      · rw [List.nodup_cons]
        refine ⟨fun hmem => ?_, ih2.1⟩
        have := ih2.2 x hmem
        simp at this
      · intro y hy
        rw [List.mem_cons] at hy
        rcases hy with rfl | hy
        · exact hx
        · have := ih2.2 y hy
          intro hys
          exact this (List.mem_cons_of_mem x hys)

/-- The deduplicated filename list of the scanner has no duplicates. -/
theorem extractImageFilenames_nodup (markdown : Str) :
    (extractImageFilenames markdown).Nodup :=
  (dedupFirstAux_nodup _ []).1

/-- The requests of one content-change pass are exactly the extracted
filenames that the missing-or-stale filter keeps (the early returns of
the source all coincide with the filtered list being empty). -/
theorem fetchSignedUrlsRequests_eq (content : Str) (cache : UrlCache)
    (now : Int) :
    fetchSignedUrlsRequests content cache now =
      (extractImageFilenames content).filter (missingFilter cache now) := by
  unfold fetchSignedUrlsRequests getSignedUrlsRequests
  split_ifs with h1 h2 h3
  · subst h1
    have hext : extractImageFilenames [] = [] := rfl
    rw [hext, List.filter_nil]
  · rw [h2, List.filter_nil]
  · rw [h3]
  · rfl

/-- A batch holding a HEIC file whose conversion fails makes the whole
`processImages` loop reject, wherever the file sits in the batch. -/
theorem processImagesAux_error_of_heic_failure (convOk : JsFile → Bool)
    (compress : JsFile → Except Unit JsFile) (seeds : Nat → Nat × Str)
    (urlPrefix : Str) :
    ∀ (files : List JsFile) (i : Nat),
      (∃ f ∈ files, isHEIC f = true ∧ convOk f = false) →
      (processImagesAux convOk compress seeds urlPrefix i files).isOk = false := by
  intro files
  induction files with
  | nil => intro i h; simp at h
  | cons f rest ih =>
    intro i h
    by_cases hh : isHEIC f = true
    · by_cases hc : convOk f = true
      · have hrest : ∃ g ∈ rest, isHEIC g = true ∧ convOk g = false := by
          rcases h with ⟨g, hg, hgh, hgc⟩
          rcases List.mem_cons.mp hg with rfl | hgmem
          · rw [hc] at hgc; cases hgc
          · exact ⟨g, hgmem, hgh, hgc⟩
        have := ih (i + 1) hrest
        simp only [processImagesAux, hh, if_pos, convertHEICtoJPEG, hc]
        cases hres : processImagesAux convOk compress seeds urlPrefix (i + 1) rest with
        | error e => rfl
        | ok ps => rw [hres] at this; simp [Except.isOk, Except.toBool] at this
      · have hc2 : convOk f = false := by
          cases hcv : convOk f
          · rfl
          · exact absurd hcv hc
        simp [processImagesAux, hh, convertHEICtoJPEG, hc2, Except.isOk, Except.toBool]
    · have hh2 : isHEIC f = false := by
        cases hv : isHEIC f
        · rfl
        · exact absurd hv hh
      have hrest : ∃ g ∈ rest, isHEIC g = true ∧ convOk g = false := by
        rcases h with ⟨g, hg, hgh, hgc⟩
        rcases List.mem_cons.mp hg with rfl | hgmem
        · rw [hgh] at hh2; cases hh2
        · exact ⟨g, hgmem, hgh, hgc⟩
      have := ih (i + 1) hrest
      simp only [processImagesAux, hh2, Bool.false_eq_true, if_neg]
      cases hres : processImagesAux convOk compress seeds urlPrefix (i + 1) rest with
      | error e => rfl
      | ok ps => rw [hres] at this; simp [Except.isOk, Except.toBool] at this

/-- A batch whose HEIC files all convert makes the whole
`processImages` loop succeed, whatever the compression oracle does:
compression failures fall back to the original file and never
reject. -/
theorem processImagesAux_ok_of_conversions_ok (convOk : JsFile → Bool)
    (compress : JsFile → Except Unit JsFile) (seeds : Nat → Nat × Str)
    (urlPrefix : Str) :
    ∀ (files : List JsFile) (i : Nat),
      (∀ f ∈ files, isHEIC f = true → convOk f = true) →
      (processImagesAux convOk compress seeds urlPrefix i files).isOk = true := by
  intro files
  induction files with
  | nil => intro i _; rfl
  | cons f rest ih =>
    intro i h
    have hrest : ∀ g ∈ rest, isHEIC g = true → convOk g = true :=
      fun g hg => h g (List.mem_cons_of_mem f hg)
    have htail := ih (i + 1) hrest
    by_cases hh : isHEIC f = true
    · have hc : convOk f = true := h f (List.mem_cons_self f rest) hh
      simp only [processImagesAux, hh, if_pos, convertHEICtoJPEG, hc]
      cases hres : processImagesAux convOk compress seeds urlPrefix (i + 1) rest with
      | error e => rw [hres] at htail; simp [Except.isOk, Except.toBool] at htail
      | ok ps => rfl
    · have hh2 : isHEIC f = false := by
        cases hv : isHEIC f
        · rfl
        · exact absurd hv hh
      simp only [processImagesAux, hh2, Bool.false_eq_true, if_neg]
      cases hres : processImagesAux convOk compress seeds urlPrefix (i + 1) rest with
      | error e => rw [hres] at htail; simp [Except.isOk, Except.toBool] at htail
      | ok ps => rfl

/-- C1: the claim says the scanner classifies a reference as
Filename-class exactly when its last path segment matches the
canonical pattern with a slash-free run between the digits and the
extension, so that a normalizer-produced name such as the one below
triggers a signing request.  The code tests the narrower pattern that
requires the dot immediately after the digits: on the failing input
the scanner extracts nothing and a content-change pass with an empty
cache issues no signing request, although the name does match the
canonical pattern of the spec. -/
theorem c1_scanner_rejects_normalizer_names :
    extractImageFilenames (str ("![image](1690000001-ab12-photo.jpg)")) = [] ∧
    fetchSignedUrlsRequests (str ("![image](1690000001-ab12-photo.jpg)")) [] 0 = [] ∧
    specFilenamePattern (str ("1690000001-ab12-photo.jpg")) = true ∧
    matchesCodePattern (str ("1690000001-ab12-photo.jpg")) = false := by
  decide

/-- C2 counterexample: one content-change pass over a text with two
stale filenames issues two signing requests, refuting the claim that
at most one signing request is issued in total for the whole
missing-or-stale subset. -/
theorem c2_counterexample :
    (fetchSignedUrlsRequests (str ("![a](123.jpg) ![b](456.png)")) [] 0).length = 2 ∧
    ¬ (fetchSignedUrlsRequests (str ("![a](123.jpg) ![b](456.png)")) [] 0).length ≤ 1 := by
  decide

/-- C2 as amended: a content-change pass issues exactly one signing
request per element of the deduplicated missing-or-stale subset (the
request list is that filtered subset, which carries no duplicate), not
one request for the whole subset. -/
theorem c2_one_request_per_missing_filename (content : Str)
    (cache : UrlCache) (now : Int) :
    fetchSignedUrlsRequests content cache now =
      (extractImageFilenames content).filter (missingFilter cache now) ∧
    (fetchSignedUrlsRequests content cache now).Nodup := by
  refine ⟨fetchSignedUrlsRequests_eq content cache now, ?_⟩
  rw [fetchSignedUrlsRequests_eq]
  exact (extractImageFilenames_nodup content).filter _

/-- C3 counterexample: scenario B of the spec evaluated on the code.
With file 0 succeeding under its canonical name and file 1 failing,
the batch promise rejects, the catch branch removes both placeholders,
and the final buffer holds no canonical reference for the succeeded
file — refuting per-file independent reconciliation. -/
theorem c3_counterexample :
    reconcileAfterUpload
      (insertPlaceholders (str ("Hello world")) 6 [str ("a.jpg"), str ("b.jpg")] 1000)
      [str ("a.jpg"), str ("b.jpg")] 1000
      (promiseAll [Except.ok (str ("1690000001-ab12-a.jpg")),
                   Except.error (str ("HTTP error"))])
      = str ("Hello \nworld") ∧
    occursIn (imageRef (str ("1690000001-ab12-a.jpg")))
      (reconcileAfterUpload
        (insertPlaceholders (str ("Hello world")) 6 [str ("a.jpg"), str ("b.jpg")] 1000)
        [str ("a.jpg"), str ("b.jpg")] 1000
        (promiseAll [Except.ok (str ("1690000001-ab12-a.jpg")),
                     Except.error (str ("HTTP error"))])) = false := by
  decide

/-- C3 as amended: reconciliation of a batch is all-or-nothing.  When
any file of a two-file batch fails, the combined promise rejects and
the catch branch removes the placeholder of every file of the batch —
the succeeded file included — leaving the surrounding text unchanged
and inserting no canonical reference. -/
theorem c3_batch_failure_removes_all (n0 n1 f0 e : Str) (uploadId : Nat)
    (a b c : Str)
    (h0 : firstOccFree (placeholderTok n0 uploadId 0 ++ str ("\n"))
      (a ++ ((placeholderTok n0 uploadId 0 ++ str ("\n")) ++
        (b ++ ((placeholderTok n1 uploadId 1 ++ str ("\n")) ++ c)))) a.length)
    (h1 : firstOccFree (placeholderTok n1 uploadId 1 ++ str ("\n"))
      ((a ++ b) ++ ((placeholderTok n1 uploadId 1 ++ str ("\n")) ++ c))
      (a ++ b).length) :
    reconcileAfterUpload
      (a ++ ((placeholderTok n0 uploadId 0 ++ str ("\n")) ++
        (b ++ ((placeholderTok n1 uploadId 1 ++ str ("\n")) ++ c))))
      [n0, n1] uploadId (promiseAll [Except.ok f0, Except.error e])
      = (a ++ b) ++ c := by
  have hstep : reconcileAfterUpload
      (a ++ ((placeholderTok n0 uploadId 0 ++ str ("\n")) ++
        (b ++ ((placeholderTok n1 uploadId 1 ++ str ("\n")) ++ c))))
      [n0, n1] uploadId (promiseAll [Except.ok f0, Except.error e])
      = replaceFirst (placeholderTok n1 uploadId 1 ++ str ("\n")) []
          (replaceFirst (placeholderTok n0 uploadId 0 ++ str ("\n")) []
            (a ++ ((placeholderTok n0 uploadId 0 ++ str ("\n")) ++
              (b ++ ((placeholderTok n1 uploadId 1 ++ str ("\n")) ++ c))))) := rfl
  rw [hstep]
  rw [replaceFirst_at _ [] a _ h0]
  have hassoc : a ++ ([] ++ (b ++ ((placeholderTok n1 uploadId 1 ++ str ("\n")) ++ c)))
      = (a ++ b) ++ ((placeholderTok n1 uploadId 1 ++ str ("\n")) ++ c) := by
    simp [List.append_assoc]
  rw [hassoc]
  rw [replaceFirst_at _ [] (a ++ b) c h1]
  simp

/-- C4: success reconciliation is a functional update against the
buffer as it stands at application time.  For any current buffer that
decomposes around the placeholder of the file (no earlier occurrence
of the token), replacing rewrites exactly that token into the
canonical reference and leaves every other character — including text
typed after the placeholder while the upload was in flight — in
place. -/
theorem c4_success_replaces_only_token (name fn : Str) (uploadId : Nat)
    (a b : Str)
    (h : firstOccFree (placeholderTok name uploadId 0)
      (a ++ (placeholderTok name uploadId 0 ++ b)) a.length) :
    reconcileAfterUpload (a ++ (placeholderTok name uploadId 0 ++ b))
      [name] uploadId (Except.ok [fn]) = a ++ (imageRef fn ++ b) ∧
    successStep (a ++ (placeholderTok name uploadId 0 ++ b))
      (placeholderTok name uploadId 0) (some fn) = a ++ (imageRef fn ++ b) := by
  have hstep : successStep (a ++ (placeholderTok name uploadId 0 ++ b))
      (placeholderTok name uploadId 0) (some fn) = a ++ (imageRef fn ++ b) := by
    unfold successStep
    exact replaceFirst_at _ _ a b h
  have hred : reconcileAfterUpload (a ++ (placeholderTok name uploadId 0 ++ b))
      [name] uploadId (Except.ok [fn])
      = successStep (a ++ (placeholderTok name uploadId 0 ++ b))
          (placeholderTok name uploadId 0) (some fn) := rfl
  exact ⟨hred.trans hstep, hstep⟩

/-- Witness for C4 at a concrete buffer where the user typed more text
after the placeholder while the upload was in flight. -/
theorem c4_witness :
    reconcileAfterUpload
      ((str ("Hello \n")) ++ (placeholderTok (str ("a.jpg")) 1000 0 ++ (str ("\nTYPED world"))))
      [str ("a.jpg")] 1000 (Except.ok [str ("1690000001-ab12-a.jpg")])
      = (str ("Hello \n")) ++ (imageRef (str ("1690000001-ab12-a.jpg")) ++ (str ("\nTYPED world"))) :=
  (c4_success_replaces_only_token (str ("a.jpg")) (str ("1690000001-ab12-a.jpg"))
    1000 (str ("Hello \n")) (str ("\nTYPED world")) (by decide)).1

/-- Witness for the amended C3 at the scenario-B buffer. -/
theorem c3_witness :
    reconcileAfterUpload
      ((str ("Hello \n")) ++ ((placeholderTok (str ("a.jpg")) 1000 0 ++ str ("\n")) ++
        (([] : Str) ++ ((placeholderTok (str ("b.jpg")) 1000 1 ++ str ("\n")) ++ str ("world")))))
      [str ("a.jpg"), str ("b.jpg")] 1000
      (promiseAll [Except.ok (str ("1690000001-ab12-a.jpg")),
                   Except.error (str ("HTTP error"))])
      = ((str ("Hello \n")) ++ ([] : Str)) ++ str ("world") :=
  c3_batch_failure_removes_all (str ("a.jpg")) (str ("b.jpg"))
    (str ("1690000001-ab12-a.jpg")) (str ("HTTP error")) 1000
    (str ("Hello \n")) [] (str ("world")) (by decide) (by decide)

/-- C5 counterexample: at the boundary instant, when now equals the
expiry minus the sixty-second margin, the current time is not more
than the margin before expiry, so the claim predicts a refresh; the
code treats the entry as fresh and the pass issues no request. -/
theorem c5_counterexample :
    fetchSignedUrlsRequests (str ("![a](123.jpg)"))
      [(str ("123.jpg"), UrlModel.parsed (some (str ("60000"))))] 0 = [] ∧
    ¬ ((0 : Int) < 60000 - 60000) := by
  decide

/-- C5 as amended: an entry is fresh exactly when now is at least the
sixty-second margin before the parsed expiry (now at most expiry minus
sixty seconds); a pass in which no extracted filename is missing or
stale issues zero requests; and an extracted filename whose entry has
gone stale is requested again by the next pass. -/
theorem c5_freshness_margin :
    (∀ (now e : Int) (raw : Str), jsParseInt raw = some e →
      (staleCheck now (UrlModel.parsed (some raw)) = false ↔ now ≤ e - 60000)) ∧
    (∀ (content : Str) (cache : UrlCache) (now : Int),
      (∀ f ∈ extractImageFilenames content, missingFilter cache now f = false) →
      fetchSignedUrlsRequests content cache now = []) ∧
    (∀ (content : Str) (cache : UrlCache) (now : Int) (f : Str),
      f ∈ extractImageFilenames content → missingFilter cache now f = true →
      f ∈ fetchSignedUrlsRequests content cache now) := by
  refine ⟨?_, ?_, ?_⟩
  · intro now e raw hparse
    by_cases hraw : raw = []
    · subst hraw
      simp [jsParseInt, parseLeadingDigits, isJsWs] at hparse
    · unfold staleCheck
      simp only [hraw, if_false, hparse]
      simp only [decide_eq_false_iff_not]
      constructor
      · intro hd
        omega
      · intro hle
        omega
  · intro content cache now hall
    rw [fetchSignedUrlsRequests_eq]
    rw [List.filter_eq_nil_iff]
    intro f hf
    rw [hall f hf]
    simp
  · intro content cache now f hf hm
    rw [fetchSignedUrlsRequests_eq]
    exact List.mem_filter.mpr ⟨hf, hm⟩

/-- Witness for the amended C5: a fresh entry at sixty seconds of
margin yields a zero-request pass, and the same filename is requested
again once the margin is crossed. -/
theorem c5_witness :
    (staleCheck 0 (UrlModel.parsed (some (str ("120000")))) = false ↔
      (0 : Int) ≤ 120000 - 60000) ∧
    fetchSignedUrlsRequests (str ("![a](123.jpg)"))
      [(str ("123.jpg"), UrlModel.parsed (some (str ("120000"))))] 0 = [] ∧
    str ("123.jpg") ∈ fetchSignedUrlsRequests (str ("![a](123.jpg)"))
      [(str ("123.jpg"), UrlModel.parsed (some (str ("120000"))))] 70000 :=
  ⟨c5_freshness_margin.1 0 120000 (str ("120000")) (by decide),
   c5_freshness_margin.2.1 (str ("![a](123.jpg)"))
     [(str ("123.jpg"), UrlModel.parsed (some (str ("120000"))))] 0 (by decide),
   c5_freshness_margin.2.2 (str ("![a](123.jpg)"))
     [(str ("123.jpg"), UrlModel.parsed (some (str ("120000"))))] 70000
     (str ("123.jpg")) (by decide) (by decide)⟩

/-- C6: an `expires` query parameter that does not parse as a number
makes `parseInt` return NaN; the greater-than comparison against NaN
is false, so the entry counts as fresh and the next pass issues no
request for it — the opposite of the claimed force-refresh.  Only the
malformed-URL half of the claim (the catch branch) behaves as
claimed. -/
theorem c6_nan_expiry_treated_fresh :
    jsParseInt (str ("abc")) = none ∧
    staleCheck 1700000000000 (UrlModel.parsed (some (str ("abc")))) = false ∧
    staleCheck 1700000000000 UrlModel.malformed = true ∧
    fetchSignedUrlsRequests (str ("![a](123.jpg)"))
      [(str ("123.jpg"), UrlModel.parsed (some (str ("abc"))))]
      1700000000000 = [] := by
  decide

/-- C7 counterexample: a one-file batch whose compression call fails
is not aborted — the catch branch of `compressImage` falls back to the
original file, `processImages` succeeds, and the upload call for the
file starts. -/
theorem c7_counterexample :
    editorUploadCalls (fun _ => true) (fun _ => Except.error ())
      (fun _ => (1690000001, str ("ab12")))
      [⟨str ("a.jpg"), str ("image/jpeg")⟩]
      = Except.ok [⟨str ("1690000001-ab12-a.jpg"), str ("image/jpeg")⟩] ∧
    (editorUploadCalls (fun _ => true) (fun _ => Except.error ())
      (fun _ => (1690000001, str ("ab12")))
      [⟨str ("a.jpg"), str ("image/jpeg")⟩]).isOk = true := by
  exact ⟨rfl, rfl⟩

/-- C7 as amended: a HEIC conversion failure for any single file
aborts the whole batch before any upload call starts, while a
compression failure never does — batches whose HEIC files all convert
succeed whatever the compression oracle returns. -/
theorem c7_conversion_aborts_compression_recovers (convOk : JsFile → Bool)
    (compress : JsFile → Except Unit JsFile) (seeds : Nat → Nat × Str)
    (files : List JsFile) :
    ((∃ f ∈ files, isHEIC f = true ∧ convOk f = false) →
      (editorUploadCalls convOk compress seeds files).isOk = false) ∧
    ((∀ f ∈ files, isHEIC f = true → convOk f = true) →
      (editorUploadCalls convOk compress seeds files).isOk = true) := by
  constructor
  · intro h
    have hproc := processImagesAux_error_of_heic_failure convOk compress seeds
      (str ("/uploads/")) files 0 h
    unfold editorUploadCalls processImages
    cases hres : processImagesAux convOk compress seeds (str ("/uploads/")) 0 files with
    | error e => rfl
    | ok ps => rw [hres] at hproc; simp [Except.isOk, Except.toBool] at hproc
  · intro h
    have hproc := processImagesAux_ok_of_conversions_ok convOk compress seeds
      (str ("/uploads/")) files 0 h
    unfold editorUploadCalls processImages
    cases hres : processImagesAux convOk compress seeds (str ("/uploads/")) 0 files with
    | error e => rw [hres] at hproc; simp [Except.isOk, Except.toBool] at hproc
    | ok ps => rfl

/-- Witness for the amended C7: a failing HEIC conversion aborts its
batch, and a batch without HEIC files survives an always-failing
compression oracle. -/
theorem c7_witness :
    (editorUploadCalls (fun _ => false) (fun f => Except.ok f)
      (fun _ => (1690000001, str ("ab12")))
      [⟨str ("pic.heic"), str ("image/heic")⟩]).isOk = false ∧
    (editorUploadCalls (fun _ => true) (fun _ => Except.error ())
      (fun _ => (1690000001, str ("ab12")))
      [⟨str ("b.png"), str ("image/png")⟩]).isOk = true :=
  ⟨(c7_conversion_aborts_compression_recovers (fun _ => false)
      (fun f => Except.ok f) (fun _ => (1690000001, str ("ab12")))
      [⟨str ("pic.heic"), str ("image/heic")⟩]).1 (by decide),
   (c7_conversion_aborts_compression_recovers (fun _ => true)
      (fun _ => Except.error ()) (fun _ => (1690000001, str ("ab12")))
      [⟨str ("b.png"), str ("image/png")⟩]).2 (by decide)⟩

/-- C8 counterexample: with the buffer of scenario A and the cursor at
offset six, the text after the cursor is the word world with no
leading space, so the claimed spliced form — which has a space between
the final newline and that word — is not what the code produces. -/
theorem c8_counterexample :
    insertPlaceholders (str ("Hello world")) 6 [str ("a.jpg"), str ("b.jpg")] 1000 ≠
      str ("Hello \n![Uploading a.jpg...](uploading-1000-0)\n![Uploading b.jpg...](uploading-1000-1)\n world") := by
  decide

/-- C8 as amended: the synchronous splice produces one placeholder
line per file at the cursor with a newline on each side, the claimed
form except that no space follows the final newline (offset six splits
the buffer after the space of Hello). -/
theorem c8_placeholder_splice :
    insertPlaceholders (str ("Hello world")) 6 [str ("a.jpg"), str ("b.jpg")] 1000 =
      str ("Hello \n![Uploading a.jpg...](uploading-1000-0)\n![Uploading b.jpg...](uploading-1000-1)\nworld") := by
  decide

/-- C9: both cache updates — the upload path and the signing path —
install a freshly allocated map object: the new reference differs from
the old one, every previously allocated object (the old cache
included) dereferences unchanged, and the new reference holds the copy
of the old map extended by one `set` per response entry. -/
theorem c9_cache_copy_on_write (h : Heap) (r : Nat) (base : Str)
    (uresults : List UploadResult) (sresults : List SignResult)
    (hr : r < h.length) :
    ((uploadPathUpdate h r base uresults).2 ≠ r ∧
     (∀ i < h.length,
        heapGet (uploadPathUpdate h r base uresults).1 i = heapGet h i) ∧
     heapGet (uploadPathUpdate h r base uresults).1
         (uploadPathUpdate h r base uresults).2 =
       some (uresults.foldl
         (fun acc res => mapSet (uploadKey res) (base ++ res.url) acc)
         ((heapGet h r).getD []))) ∧
    ((signPathUpdate h r base sresults).2 ≠ r ∧
     (∀ i < h.length,
        heapGet (signPathUpdate h r base sresults).1 i = heapGet h i) ∧
     heapGet (signPathUpdate h r base sresults).1
         (signPathUpdate h r base sresults).2 =
       some (sresults.foldl
         (fun acc res => mapSet res.filename (base ++ res.url) acc)
         ((heapGet h r).getD []))) := by
  refine ⟨⟨?_, ?_, ?_⟩, ⟨?_, ?_, ?_⟩⟩
  · show h.length ≠ r
    omega
  · intro i hi
    exact List.getElem?_append_left hi
  · exact List.getElem?_concat_length h _
  · show h.length ≠ r
    omega
  · intro i hi
    exact List.getElem?_append_left hi
  · exact List.getElem?_concat_length h _

/-- Witness for C9 on a one-object heap. -/
theorem c9_witness :
    (uploadPathUpdate ([[]] : Heap) 0 (str ("https://api"))
      [⟨some (str ("f.jpg")), str ("/p"), str ("/u")⟩]).2 ≠ 0 ∧
    (signPathUpdate ([[]] : Heap) 0 (str ("https://api"))
      [⟨str ("f.jpg"), str ("/u2")⟩]).2 ≠ 0 :=
  ⟨(c9_cache_copy_on_write [[]] 0 (str ("https://api"))
      [⟨some (str ("f.jpg")), str ("/p"), str ("/u")⟩]
      [⟨str ("f.jpg"), str ("/u2")⟩] (by decide)).1.1,
   (c9_cache_copy_on_write [[]] 0 (str ("https://api"))
      [⟨some (str ("f.jpg")), str ("/p"), str ("/u")⟩]
      [⟨str ("f.jpg"), str ("/u2")⟩] (by decide)).2.1⟩

/-- C10: the save path sends the buffer text verbatim as the entry
content for every buffer — the content field of the built request is
the buffer itself, with no filtering of in-flight placeholder tokens —
so saving while an upload is pending persists the uploading token, as
the concrete conjunct shows for a buffer holding a placeholder. -/
theorem c10_save_sends_buffer_verbatim :
    (∀ (content : Str) (locationId : Option Nat) (tagIds : List Nat)
       (mediaPaths : List Str),
      (mkSaveRequest content locationId tagIds mediaPaths).content = content) ∧
    occursIn (placeholderTok (str ("a.jpg")) 1000 0)
      ((mkSaveRequest (insertPlaceholders (str ("Hi")) 2 [str ("a.jpg")] 1000)
        none [] []).content) = true := by
  constructor
  · intro content locationId tagIds mediaPaths
    rfl
  · decide

end LifeLog
